import Mathlib

/-!
Verification development for the ustack blog server, a shallow embedding of
the content cache and refresh engine in src/util/db.rs, together with the
path validation helpers (src/util/has_any_symlinks.rs), the conditional
request evaluator (src/util/header_ext.rs) and the metadata model
(src/model/metadata.rs, src/model/index_metadata.rs).

Modelling conventions:
- SystemTime and DateTime values are modelled as Int (seconds); Duration as
  an Int number of seconds.
- A filesystem path is its list of components. Identifiers are single path
  components (the HTTP layer routes on slashes and strips dots before any
  lookup reaches the database).
- The filesystem is an explicit oracle state: a table of successful
  canonicalizations, the set of symlink paths, the table of openable files
  (keyed by canonical path, carrying mtime and the black-box outcome of the
  markdown front-matter parse), and the posts-directory listing. The external
  markdown engine and chrono date parsing are black boxes per the spec, so a
  file carries its parse outcome and a header map carries its parsed value.
- Rust HashMap is modelled as an association list with unique keys by
  construction of insert and remove.
- Every refresh operation also returns the list of filesystem operations it
  performed, so frame claims about disk I/O are statable.
- itertools sorted_by is a stable sort; stable sorts are extensionally
  unique, so List.insertionSort with the same comparator models it exactly.
-/

/-- Filesystem path, as its list of components. -/
abbrev FsPath := List String

/-- Io error kinds distinguished by the code: ErrorKind::NotFound versus
every other kind. -/
inductive FsErrorKind where
  | notFound
  | other
  deriving DecidableEq

/-- Errors surfaced by the database layer: NotFound, InvalidData (bad path
or bad front matter), and any other propagated io error. -/
inductive DbError where
  | notFound
  | invalidData
  | ioOther
  deriving DecidableEq

/-- Filesystem operations a refresh can perform, for frame reasoning:
dunce canonicalize, File::open, the mtime stat, and the read plus
markdown/front-matter parse. -/
inductive IoOp where
  | canonicalizeCall
  | openCall
  | statCall
  | readParseCall
  deriving DecidableEq

/-- Post front matter (model/metadata.rs Metadata). The created timestamp is
the parsed MyDateTime as seconds. -/
structure Metadata where
  title : String
  author : Option String
  summary : Option String
  created : Option Int
  highlight : Bool
  tags : List String
  deriving DecidableEq

/-- Site front matter of the index file (model/index_metadata.rs). Urls are
kept as strings. -/
structure IndexMetadata where
  title : String
  short_title : Option String
  author : Option String
  summary : Option String
  highlight : Bool
  tags : List String
  url : String
  twitter : Bool
  lang : String
  coffee : Option String
  deriving DecidableEq

/-- From IndexMetadata for Metadata (model/metadata.rs): created becomes
None. -/
def Metadata.ofIndex (m : IndexMetadata) : Metadata :=
  ⟨m.title, m.author, m.summary, none, m.highlight, m.tags⟩

/-- One cached parsed document (db.rs PostEntry): updated is the last time
the database checked the entry, last_modified the file mtime at parse
time. -/
structure PostEntry where
  updated : Int
  last_modified : Int
  metadata : Metadata
  body : String
  deriving DecidableEq

/-- The channel-level RSS state rebuilt by make_rss_base on each index
refresh: the metadata snapshot, last_build_date (index_updated), pub_date
(now) and the ttl in minutes, rounded up with a floor of 5. -/
structure RssBase where
  meta : IndexMetadata
  last_build_date : Int
  pub_date : Int
  ttl_minutes : Int
  deriving DecidableEq

/-- The blog database (db.rs PostDb). -/
structure PostDb where
  posts : List (String × PostEntry)
  posts_dir : FsPath
  ttl : Int
  index_updated : Int
  index_metadata : IndexMetadata
  rss_base : RssBase
  deriving DecidableEq

/-- An openable file: its mtime, and the black-box result of reading it and
extracting front matter plus rendered HTML, as a post (Metadata) or as the
index (IndexMetadata). A parse outcome of none is the InvalidData error of a
missing or schema-invalid front-matter block. -/
structure FileInfo where
  mtime : Int
  parse : Option (Metadata × String)
  parseIndex : Option (IndexMetadata × String)
  deriving DecidableEq

/-- The filesystem oracle. canonOk lists successful canonicalizations;
canonErrOther lists paths whose canonicalization fails with a kind other
than NotFound (everything unlisted fails with NotFound). files lists the
openable files by canonical path; openErrOther likewise. symlinks is the set
of paths for which Path::is_symlink holds. dirEntries is the posts directory
listing, in iteration order. -/
structure Fs where
  canonOk : List (FsPath × FsPath)
  canonErrOther : List FsPath
  files : List (FsPath × FileInfo)
  openErrOther : List FsPath
  symlinks : List FsPath
  dirEntries : List String
  deriving DecidableEq

instance {ε α : Type} [DecidableEq ε] [DecidableEq α] : DecidableEq (Except ε α) := by
  intro a b
  cases a <;> cases b
  case error.error x y =>
    exact if h : x = y then .isTrue (by rw [h]) else .isFalse (by intro hh; cases hh; exact h rfl)
  case error.ok x y => exact .isFalse (by intro hh; cases hh)
  case ok.error x y => exact .isFalse (by intro hh; cases hh)
  case ok.ok x y =>
    exact if h : x = y then .isTrue (by rw [h]) else .isFalse (by intro hh; cases hh; exact h rfl)

/-- Result of a refresh operation: the database state after it, the returned
entry or error, and the filesystem operations performed. -/
structure RefreshResult where
  db : PostDb
  res : Except DbError PostEntry
  ops : List IoOp
  deriving DecidableEq

/-- Model of dunce canonicalize, looked up in the filesystem oracle. -/
def canonicalize (fs : Fs) (p : FsPath) : Except FsErrorKind FsPath :=
  match fs.canonOk.lookup p with
  | some q => .ok q
  | none => if p ∈ fs.canonErrOther then .error .other else .error .notFound

/-- Model of tokio File::open followed by the metadata stat. -/
def openFile (fs : Fs) (p : FsPath) : Except FsErrorKind FileInfo :=
  match fs.files.lookup p with
  | some fi => .ok fi
  | none => if p ∈ fs.openErrOther then .error .other else .error .notFound

/-- Model of Path::is_symlink via the oracle. -/
def isSymlink (fs : Fs) (p : FsPath) : Bool :=
  decide (p ∈ fs.symlinks)

/-- Recursion of has_any_symlinks (has_any_symlinks.rs): the path is a
symlink, or some parent is. Fueled by the component count so that the
recursion is structural; parent is dropLast and the root has no parent. -/
def has_any_symlinks_aux (fs : Fs) : FsPath → Nat → Bool
  | _, 0 => false
  | p, n + 1 => if p.isEmpty then false else isSymlink fs p || has_any_symlinks_aux fs p.dropLast n

/-- HasAnySymlinks::has_any_symlinks for a path. -/
def has_any_symlinks (fs : Fs) (p : FsPath) : Bool :=
  has_any_symlinks_aux fs p p.length

/-- String starts_with, over the character list so that it reduces. -/
def str_starts_with (s pre : String) : Bool :=
  pre.toList.isPrefixOf s.toList

/-- String ends_with, over the character list so that it reduces. -/
def str_ends_with (s suf : String) : Bool :=
  suf.toList.isSuffixOf s.toList

/-- Split a character list at its last dot: some (before, after) when a dot
exists, none otherwise. -/
def lastDotSplit : List Char → Option (List Char × List Char)
  | [] => none
  | c :: rest =>
    match lastDotSplit rest with
    | some (pre, post) => some (c :: pre, post)
    | none => if c = '.' then some ([], rest) else none

/-- Path::extension of a file name: the part after the last dot, provided
the stem before it is nonempty (so dotfiles like .foo have no extension),
matching the Rust semantics used by the validator. -/
def fileExtension (s : String) : Option String :=
  match lastDotSplit s.toList with
  | none => none
  | some (pre, post) => if pre.isEmpty then none else some (String.mk post)

/-- Path::file_stem of a file name: the part before the last dot, or the
whole name when there is no extension. -/
def file_stem (s : String) : String :=
  match lastDotSplit s.toList with
  | none => s
  | some (pre, _) => if pre.isEmpty then s else String.mk pre

/-- Path::with_extension("md") on a single component. -/
def with_extension_md (s : String) : String :=
  file_stem s ++ ".md"

/-- The closure in validate_post_path: the file name starts with an ASCII
letter or digit. -/
def starts_alnum (s : String) : Bool :=
  match s.toList with
  | [] => false
  | c :: _ =>
    (decide ('A' ≤ c) && decide (c ≤ 'Z')) ||
    (decide ('a' ≤ c) && decide (c ≤ 'z')) ||
    (decide ('0' ≤ c) && decide (c ≤ '9'))

/-- The valid_filename check of PostDb::validate_post_path: extension is md
and the file name starts with an ASCII alphanumeric character. -/
def valid_filename (p : FsPath) : Bool :=
  match p.getLast? with
  | some name => (fileExtension name == some "md") && starts_alnum name
  | none => false

/-- PostDb::validate_post_path on the canonicalized path: the parent check
(the path starts with the canonical posts_dir) is tested first, then the
file name shape. True means Ok. -/
def validate_post_path (db : PostDb) (p : FsPath) : Bool :=
  let vf := valid_filename p
  let vpp := db.posts_dir.isPrefixOf p
  if !vpp then false
  else if !vf then false
  else true

/-- The un-canonicalized argument posts_dir.join(id).with_extension("md"). -/
def joined_post_path (db : PostDb) (id : String) : FsPath :=
  db.posts_dir ++ [with_extension_md id]

/-- PostDb::get_unvalidated_post_path: canonicalize the joined path. -/
def get_unvalidated_post_path (fs : Fs) (db : PostDb) (id : String) : Except FsErrorKind FsPath :=
  canonicalize fs (joined_post_path db id)

/-- HashMap::insert on the association list (replaces an existing key). -/
def insertAssoc (l : List (String × PostEntry)) (k : String) (v : PostEntry) :
    List (String × PostEntry) :=
  match l with
  | [] => [(k, v)]
  | (k0, v0) :: rest => if k0 == k then (k, v) :: rest else (k0, v0) :: insertAssoc rest k v

/-- HashMap::remove on the association list. -/
def removePost (db : PostDb) (id : String) : PostDb :=
  { db with posts := db.posts.filter (fun kv => !(kv.1 == id)) }

/-- HashMap::insert on the database. -/
def insertPost (db : PostDb) (id : String) (e : PostEntry) : PostDb :=
  { db with posts := insertAssoc db.posts id e }

/-- The TTL fast-path condition of refresh_inner:
updated.map_or(false, |updated| updated + self.ttl >= SystemTime::now()). -/
def ttl_fresh (db : PostDb) (id : String) (now : Int) : Bool :=
  ((db.posts.lookup id).map (fun e => decide (e.updated + db.ttl ≥ now))).getD false

/-- The modification check of refresh_inner:
updated.map_or(false, |updated| updated >= file_modified_time). Note that it
compares the file mtime against the updated field (the last check time), not
against last_modified. -/
def file_unchanged_check (db : PostDb) (id : String) (mtime : Int) : Bool :=
  ((db.posts.lookup id).map (fun e => decide (e.updated ≥ mtime))).getD false

/-- PostDb::make_rss_base, reduced to the state it snapshots: the site
metadata, last_build_date (index_updated), pub_date (now) and the ttl in
minutes rounded up, floored at 5. -/
def make_rss_base (meta : IndexMetadata) (index_updated : Int) (ttl : Int) (now : Int) : RssBase :=
  ⟨meta, index_updated, now, max ((ttl + 59) / 60) 5⟩

/-- PostDb::parse_index: on parse success, bump index_updated to the max of
the file mtime, store the site metadata, insert the entry under /index and
rebuild the RSS base; on failure, InvalidData. -/
def parse_index (db : PostDb) (fi : FileInfo) (now : Int) : Except DbError (PostDb × PostEntry) :=
  match fi.parseIndex with
  | none => .error .invalidData
  | some (meta, body) =>
    let entry : PostEntry := ⟨now, fi.mtime, Metadata.ofIndex meta, body⟩
    let iu := max entry.last_modified db.index_updated
    .ok ({ db with
            index_updated := iu,
            index_metadata := meta,
            posts := insertAssoc db.posts "/index" entry,
            rss_base := make_rss_base meta iu db.ttl now }, entry)

/-- PostDb::parse_page: on parse success insert the fresh entry, otherwise
InvalidData and no mutation. -/
def parse_page (db : PostDb) (fi : FileInfo) (id : String) (now : Int) :
    Except DbError (PostDb × PostEntry) :=
  match fi.parse with
  | none => .error .invalidData
  | some (meta, body) =>
    let entry : PostEntry := ⟨now, fi.mtime, meta, body⟩
    .ok ({ db with posts := insertAssoc db.posts id entry }, entry)

/-- The tail of refresh_inner after a successful open and stat: dispatch on
the /index identifier, then return the freshly inserted entry. -/
def parse_file (db : PostDb) (fi : FileInfo) (id : String) (now : Int) : RefreshResult :=
  match (if id == "/index" then parse_index db fi now else parse_page db fi id now) with
  | .ok (db2, e) => ⟨db2, .ok e, [.openCall, .statCall, .readParseCall]⟩
  | .error err => ⟨db, .error err, [.openCall, .statCall, .readParseCall]⟩

/-- PostDb::refresh_inner: TTL fast path, then open (NotFound evicts), then
the mtime-versus-updated check that only bumps updated, then the full
re-parse. -/
def refresh_inner (fs : Fs) (db : PostDb) (id : String) (post_file : FsPath) (now : Int) :
    RefreshResult :=
  match db.posts.lookup id with
  | some e =>
    if e.updated + db.ttl ≥ now then ⟨db, .ok e, []⟩
    else
      match openFile fs post_file with
      | .error .notFound => ⟨removePost db id, .error .notFound, [.openCall]⟩
      | .error .other => ⟨db, .error .ioOther, [.openCall]⟩
      | .ok fi =>
        if e.updated ≥ fi.mtime then
          ⟨insertPost db id { e with updated := now }, .ok { e with updated := now },
            [.openCall, .statCall]⟩
        else parse_file db fi id now
  | none =>
    match openFile fs post_file with
    | .error .notFound => ⟨removePost db id, .error .notFound, [.openCall]⟩
    | .error .other => ⟨db, .error .ioOther, [.openCall]⟩
    | .ok fi => parse_file db fi id now

/-- PostDb::refresh: canonicalize the post path (NotFound evicts the cache
entry and reports NotFound, any other canonicalization failure reports
InvalidData), validate it, then run refresh_inner. -/
def refresh (fs : Fs) (db : PostDb) (id : String) (now : Int) : RefreshResult :=
  match get_unvalidated_post_path fs db id with
  | .ok path =>
    if validate_post_path db path then
      let r := refresh_inner fs db id path now
      { r with ops := .canonicalizeCall :: r.ops }
    else ⟨db, .error .invalidData, [.canonicalizeCall]⟩
  | .error .notFound => ⟨removePost db id, .error .notFound, [.canonicalizeCall]⟩
  | .error .other => ⟨db, .error .invalidData, [.canonicalizeCall]⟩

/-- The discovery loop of PostDb::refresh_index over the directory listing:
dotted and non-markdown entries are skipped, already-cached identifiers are
skipped, and a refresh error aborts the loop (the question-mark operator in
the source propagates it). -/
def scan_posts (fs : Fs) (db : PostDb) (names : List String) (now : Int) :
    PostDb × Except DbError Unit :=
  match names with
  | [] => (db, .ok ())
  | name :: rest =>
    let is_markdown := fileExtension name == some "md"
    let is_dotted := str_starts_with name "."
    if is_dotted || !is_markdown then scan_posts fs db rest now
    else
      let id := file_stem name
      if (db.posts.lookup id).isSome then scan_posts fs db rest now
      else
        let r := refresh fs db id now
        match r.res with
        | .ok _ => scan_posts fs r.db rest now
        | .error e => (r.db, .error e)

/-- PostDb::refresh_index: when allowed and the scan timestamp is stale,
run the discovery loop and only then set index_updated to now; afterwards
canonicalize ../index.md and refresh the reserved /index entry through
refresh_inner. -/
def refresh_index (fs : Fs) (db : PostDb) (allow_search_all : Bool) (now : Int) :
    PostDb × Except DbError PostEntry :=
  let scanned : PostDb × Except DbError Unit :=
    if allow_search_all && decide (db.index_updated + db.ttl ≤ now) then
      match scan_posts fs db fs.dirEntries now with
      | (db2, .ok _) => ({ db2 with index_updated := now }, .ok ())
      | (db2, .error e) => (db2, .error e)
    else (db, .ok ())
  match scanned with
  | (db2, .error e) => (db2, .error e)
  | (db2, .ok _) =>
    match canonicalize fs (db2.posts_dir ++ ["..", "index.md"]) with
    | .error .notFound => (db2, .error .notFound)
    | .error .other => (db2, .error .ioOther)
    | .ok path =>
      let r := refresh_inner fs db2 "/index" path now
      (r.db, r.res)

/-- A post as handed to consumers: its identifier and cache entry. -/
structure Post where
  id : String
  entry : PostEntry
  deriving DecidableEq

/-- PostDb::all_posts: every cache entry whose identifier does not start
with a slash. -/
def all_posts (db : PostDb) : List Post :=
  (db.posts.filter (fun kv => !(str_starts_with kv.1 "/"))).map (fun kv => ⟨kv.1, kv.2⟩)

/-- PostDb::get_random_id: a uniform choice among the non-slash identifiers,
modelled by the random index the rng produces. -/
def get_random_id (db : PostDb) (choice : Nat) : Option String :=
  let ids := (db.posts.map Prod.fst).filter (fun id => !(str_starts_with id "/"))
  ids[choice % ids.length]?

/-- Rust Ord::cmp on Int. -/
def cmpInt (a b : Int) : Ordering :=
  if a < b then .lt else if b < a then .gt else .eq

/-- Post::cmp_published: compare the front-matter created timestamps,
falling back to last_modified on either side when absent. -/
def cmp_published (a b : Post) : Ordering :=
  match a.entry.metadata.created, b.entry.metadata.created with
  | none, none => cmpInt a.entry.last_modified b.entry.last_modified
  | none, some tb => cmpInt a.entry.last_modified tb
  | some ta, none => cmpInt ta b.entry.last_modified
  | some ta, some tb => cmpInt ta tb

/-- The published timestamp of a post: created when present, else the file
modification time. -/
def published (p : Post) : Int :=
  p.entry.metadata.created.getD p.entry.last_modified

/-- The comparator the feed passes to sorted_by: a before b when
b.cmp_published(a) is not Greater, which sorts descending by published. -/
def rss_order (a b : Post) : Prop :=
  cmp_published b a ≠ Ordering.gt

instance : DecidableRel rss_order := by
  intro a b
  unfold rss_order
  infer_instance

/-- The PartialOrd >= on Option from the feed filter
(created.as_deref() >= since): None is below every Some. -/
def optGe (a b : Option Int) : Bool :=
  match a, b with
  | none, none => true
  | none, some _ => false
  | some _, none => true
  | some x, some y => decide (y ≤ x)

/-- The item selection of PostDb::get_rss: filter all_posts by
created >= since, stable-sort by the descending published comparator, take
at most maxItems. insertionSort models the stable sorted_by. -/
def get_rss_posts (db : PostDb) (since : Option Int) (maxItems : Nat) : List Post :=
  (((all_posts db).filter (fun p => optGe p.entry.metadata.created since)).insertionSort
    rss_order).take maxItems

/-- An RSS item as built by Post::to_rss_item: escaped title, publish date
when known, permalink from the post id, summary, and the body only when
full content is requested. -/
structure RssItem where
  title : String
  pub_date : Option Int
  link_id : String
  description : Option String
  content : Option String
  deriving DecidableEq

/-- Post::to_rss_item. -/
def to_rss_item (p : Post) (include_content : Bool) : RssItem :=
  ⟨p.entry.metadata.title, p.entry.metadata.created, p.id, p.entry.metadata.summary,
    if include_content then some p.entry.body else none⟩

/-- PostDb::get_rss, reduced to the item list it installs in the channel. -/
def get_rss (db : PostDb) (since : Option Int) (include_content : Bool) (maxItems : Nat) :
    List RssItem :=
  (get_rss_posts db since maxItems).map (fun p => to_rss_item p include_content)

/-- The suspicious-segment check of the /public static route in serve.rs:
hidden segments, .pem files and id_rsa-like names. -/
def public_is_suspicious (p : FsPath) : Bool :=
  p.any (fun seg => str_starts_with seg "." || str_ends_with seg ".pem" ||
    str_starts_with seg "id_rsa")

/-- The gate of the /public static route: a request is blocked (404) when
the path is suspicious or traverses any symlink. -/
def public_blocked (fs : Fs) (p : FsPath) : Bool :=
  public_is_suspicious p || has_any_symlinks fs p

/-- Request header state at the boundary the evaluator consumes:
if_modified_since is the parsed If-Modified-Since value when the header is
present and parses under the RFC 2822 HTTP date format (none when absent or
unparseable); cache_control is the token list after splitting the
Cache-Control value on the RFC 2616 separators (none when absent). -/
structure HeaderMap where
  if_modified_since : Option Int
  cache_control : Option (List String)
  deriving DecidableEq

/-- CacheControl::is_no_cache: some token equals no-cache. -/
def is_no_cache (tokens : List String) : Bool :=
  tokens.any (fun t => t == "no-cache")

/-- IfModifiedSince::is_up_to_date: the authoritative timestamp is at most
the client timestamp plus one second. -/
def is_up_to_date (ims : Int) (current : Int) : Bool :=
  decide (current ≤ ims + 1)

/-- HeaderExt::is_cache_valid: up to date and not forced fresh by a
no-cache directive. -/
def is_cache_valid (hm : HeaderMap) (current : Int) : Bool :=
  let no_cache := (hm.cache_control.map is_no_cache).getD false
  let cache_valid := (hm.if_modified_since.map (fun t => is_up_to_date t current)).getD false
  cache_valid && !no_cache

/-- The generator-side identifier alphabet from the spec, for stating the
character claims. -/
def is_post_id_char (c : Char) : Bool :=
  (decide ('A' ≤ c) && decide (c ≤ 'Z')) ||
  (decide ('a' ≤ c) && decide (c ≤ 'z')) ||
  (decide ('0' ≤ c) && decide (c ≤ '9')) ||
  decide (c = '-')

/-- Shared example post metadata without a created timestamp. -/
def meta0 : Metadata := ⟨"T", none, none, none, false, []⟩

/-- Shared example site metadata. -/
def im0 : IndexMetadata :=
  ⟨"Site", none, none, none, false, [], "https://example.com", false, "en", none⟩

/-- Shared example RSS base. -/
def rb0 : RssBase := ⟨im0, 0, 0, 5⟩

/-- Shared example canonical posts directory. -/
def pdir : FsPath := ["srv", "posts"]

lemma cmpInt_ne_gt {a b : Int} : cmpInt a b ≠ Ordering.gt ↔ a ≤ b := by
  unfold cmpInt
  split_ifs with h1 h2 <;> simp <;> omega

lemma cmp_published_eq_cmpInt (a b : Post) :
    cmp_published a b = cmpInt (published a) (published b) := by
  rcases ha : a.entry.metadata.created with _ | ta <;>
    rcases hb : b.entry.metadata.created with _ | tb <;>
    simp [cmp_published, published, ha, hb]

lemma rss_order_iff (a b : Post) : rss_order a b ↔ published b ≤ published a := by
  unfold rss_order
  rw [cmp_published_eq_cmpInt]
  exact cmpInt_ne_gt

instance : IsTotal Post rss_order := by
  constructor
  intro a b
  rw [rss_order_iff, rss_order_iff]
  omega

instance : IsTrans Post rss_order := by
  constructor
  intro a b c hab hbc
  rw [rss_order_iff] at hab hbc ⊢
  omega

lemma optGe_none_right (a : Option Int) : optGe a none = true := by
  cases a <;> rfl

lemma filter_optGe_none (db : PostDb) :
    (all_posts db).filter (fun p => optGe p.entry.metadata.created none) = all_posts db :=
  List.filter_eq_self.mpr (fun _ _ => optGe_none_right _)

lemma mem_all_posts_no_slash {db : PostDb} {p : Post} (h : p ∈ all_posts db) :
    str_starts_with p.id "/" = false := by
  unfold all_posts at h
  rw [List.mem_map] at h
  obtain ⟨kv, hkv, rfl⟩ := h
  have h2 := (List.mem_filter.mp hkv).2
  simpa using h2

lemma mem_get_rss_posts {db : PostDb} {since : Option Int} {m : Nat} {p : Post}
    (h : p ∈ get_rss_posts db since m) :
    p ∈ all_posts db ∧ optGe p.entry.metadata.created since = true := by
  unfold get_rss_posts at h
  have h1 := List.mem_of_mem_take h
  have h2 := (List.perm_insertionSort rss_order _).subset h1
  exact List.mem_filter.mp h2

/-- C7: the Conditional-Request Evaluator reports not-modified exactly when
an If-Modified-Since header is present and parses, the authoritative
timestamp is at most the client timestamp plus one second, and no no-cache
directive is present; an absent or unparseable If-Modified-Since, or a
no-cache directive, always yields a fresh answer. -/
theorem is_cache_valid_iff (hm : HeaderMap) (current : Int) :
    is_cache_valid hm current = true ↔
      ((∃ t, hm.if_modified_since = some t ∧ current ≤ t + 1) ∧
        ¬ ∃ toks, hm.cache_control = some toks ∧ "no-cache" ∈ toks) := by
  obtain ⟨ims, cc⟩ := hm
  cases ims <;> cases cc <;>
    simp [is_cache_valid, is_no_cache, is_up_to_date, List.any_eq_true]
  intro _
  constructor
  · intro h hmem
    exact h _ hmem rfl
  · intro h x hx hxe
    subst hxe
    exact h hx

/-- C9: with since absent the feed builder returns every post, stably sorted
descending by published timestamp, truncated to the maximum item count. -/
theorem feed_no_since_sorted_desc_truncated (db : PostDb) (m : Nat) :
    ∃ l : List Post, l.Perm (all_posts db) ∧
      List.Pairwise (fun a b => published b ≤ published a) l ∧
      get_rss_posts db none m = l.take m := by
  refine ⟨(all_posts db).insertionSort rss_order, List.perm_insertionSort _ _, ?_, ?_⟩
  · have hs := List.sorted_insertionSort rss_order (all_posts db)
    exact hs.imp (fun h => (rss_order_iff _ _).mp h)
  · unfold get_rss_posts
    rw [filter_optGe_none]

/-- C10: no entry whose identifier starts with a slash (in particular the
reserved /index entry) is ever yielded by the all-posts listing, by random
post selection, or by the feed builder. -/
theorem index_entry_never_listed (db : PostDb) (choice : Nat) (since : Option Int) (m : Nat) :
    ((all_posts db).all (fun p => !(str_starts_with p.id "/")) = true) ∧
    ((get_random_id db choice).all (fun id => !(str_starts_with id "/")) = true) ∧
    ((get_rss_posts db since m).all (fun p => !(str_starts_with p.id "/")) = true) := by
  refine ⟨?_, ?_, ?_⟩
  · rw [List.all_eq_true]
    intro p hp
    simpa using mem_all_posts_no_slash hp
  · unfold get_random_id
    cases hg : ((db.posts.map Prod.fst).filter (fun id => !(str_starts_with id "/")))[choice %
        ((db.posts.map Prod.fst).filter (fun id => !(str_starts_with id "/"))).length]? with
    | none => simp [hg]
    | some i =>
      have hmem := List.getElem?_mem hg
      have h2 := (List.mem_filter.mp hmem).2
      simp [hg]
      simpa using h2
  · rw [List.all_eq_true]
    intro p hp
    simpa using mem_all_posts_no_slash (mem_get_rss_posts hp).1

/-- C8 amended: with since = T, the feed selects by the front-matter created
timestamp alone: every selected post has created = t with T ≤ t, and (when
the maximum count does not truncate) every post with created = t, T ≤ t is
selected — posts without a created timestamp are always dropped. -/
theorem feed_filter_by_created_only (db : PostDb) (T : Int) (m : Nat) :
    (∀ p ∈ get_rss_posts db (some T) m, ∃ t, p.entry.metadata.created = some t ∧ T ≤ t) ∧
    ((all_posts db).length ≤ m → ∀ p ∈ all_posts db, ∀ t, p.entry.metadata.created = some t →
      T ≤ t → p ∈ get_rss_posts db (some T) m) := by
  constructor
  · intro p hp
    obtain ⟨-, hopt⟩ := mem_get_rss_posts hp
    cases hc : p.entry.metadata.created with
    | none => rw [hc] at hopt; simp [optGe] at hopt
    | some t =>
      refine ⟨t, rfl, ?_⟩
      rw [hc] at hopt
      simpa [optGe] using hopt
  · intro hlen p hp t hct hTt
    unfold get_rss_posts
    have hf : p ∈ (all_posts db).filter (fun p => optGe p.entry.metadata.created (some T)) :=
      List.mem_filter.mpr ⟨hp, by simp [optGe, hct]; exact hTt⟩
    have hs := ((List.perm_insertionSort rss_order
      ((all_posts db).filter (fun p => optGe p.entry.metadata.created (some T)))).symm.subset) hf
    have hl2 : (((all_posts db).filter
        (fun p => optGe p.entry.metadata.created (some T))).insertionSort rss_order).length ≤ m := by
      rw [(List.perm_insertionSort rss_order _).length_eq]
      exact le_trans (List.length_filter_le _ _) hlen
    rw [List.take_of_length_le hl2]
    exact hs

lemma validate_of_parts (db : PostDb) (p : FsPath)
    (h1 : db.posts_dir.isPrefixOf p = true) (h2 : valid_filename p = true) :
    validate_post_path db p = true := by
  simp [validate_post_path, h1, h2]

lemma refresh_fast_path_eq (fs : Fs) (db : PostDb) (id : String) (now : Int) (p : FsPath)
    (e : PostEntry)
    (hpath : get_unvalidated_post_path fs db id = .ok p)
    (hval : validate_post_path db p = true)
    (hlook : db.posts.lookup id = some e)
    (hfresh : e.updated + db.ttl ≥ now) :
    refresh fs db id now = ⟨db, .ok e, [.canonicalizeCall]⟩ := by
  simp [refresh, refresh_inner, hpath, hval, hlook, hfresh]

lemma refresh_canon_notfound_eq (fs : Fs) (db : PostDb) (id : String) (now : Int)
    (hpath : get_unvalidated_post_path fs db id = .error .notFound) :
    refresh fs db id now = ⟨removePost db id, .error .notFound, [.canonicalizeCall]⟩ := by
  simp [refresh, hpath]

lemma ttl_fresh_false_of_some {db : PostDb} {id : String} {now : Int} {e : PostEntry}
    (hlook : db.posts.lookup id = some e) (hTF : ttl_fresh db id now = false) :
    ¬ (e.updated + db.ttl ≥ now) := by
  simp [ttl_fresh, hlook] at hTF
  omega

lemma unchanged_false_of_some {db : PostDb} {id : String} {mtime : Int} {e : PostEntry}
    (hlook : db.posts.lookup id = some e) (hUC : file_unchanged_check db id mtime = false) :
    ¬ (e.updated ≥ mtime) := by
  simp [file_unchanged_check, hlook] at hUC
  omega

lemma refresh_open_notfound_eq (fs : Fs) (db : PostDb) (id : String) (now : Int) (p : FsPath)
    (hpath : get_unvalidated_post_path fs db id = .ok p)
    (hval : validate_post_path db p = true)
    (hTF : ttl_fresh db id now = false)
    (hopen : openFile fs p = .error .notFound) :
    refresh fs db id now = ⟨removePost db id, .error .notFound, [.canonicalizeCall, .openCall]⟩ := by
  cases hl : db.posts.lookup id with
  | none => simp [refresh, refresh_inner, hpath, hval, hl, hopen]
  | some e =>
    have hst := ttl_fresh_false_of_some hl hTF
    simp [refresh, refresh_inner, hpath, hval, hl, hst, hopen]

lemma refresh_bump_eq (fs : Fs) (db : PostDb) (id : String) (now : Int) (p : FsPath)
    (e : PostEntry) (fi : FileInfo)
    (hpath : get_unvalidated_post_path fs db id = .ok p)
    (hval : validate_post_path db p = true)
    (hlook : db.posts.lookup id = some e)
    (hstale : ¬ (e.updated + db.ttl ≥ now))
    (hopen : openFile fs p = .ok fi)
    (hbump : e.updated ≥ fi.mtime) :
    refresh fs db id now = ⟨insertPost db id { e with updated := now },
      .ok { e with updated := now }, [.canonicalizeCall, .openCall, .statCall]⟩ := by
  simp [refresh, refresh_inner, hpath, hval, hlook, hstale, hopen, hbump]

lemma refresh_parse_error_eq (fs : Fs) (db : PostDb) (id : String) (now : Int) (p : FsPath)
    (fi : FileInfo)
    (hpath : get_unvalidated_post_path fs db id = .ok p)
    (hval : validate_post_path db p = true)
    (hTF : ttl_fresh db id now = false)
    (hopen : openFile fs p = .ok fi)
    (hUC : file_unchanged_check db id fi.mtime = false)
    (hid : id ≠ "/index")
    (hparse : fi.parse = none) :
    refresh fs db id now = ⟨db, .error .invalidData,
      [.canonicalizeCall, .openCall, .statCall, .readParseCall]⟩ := by
  cases hl : db.posts.lookup id with
  | none =>
    simp [refresh, refresh_inner, hpath, hval, hl, hopen, parse_file, parse_page, hid, hparse]
  | some e =>
    have hst := ttl_fresh_false_of_some hl hTF
    have hu := unchanged_false_of_some hl hUC
    simp [refresh, refresh_inner, hpath, hval, hl, hst, hopen, hu, parse_file, parse_page,
      hid, hparse]

lemma refresh_parse_ok_eq (fs : Fs) (db : PostDb) (id : String) (now : Int) (p : FsPath)
    (fi : FileInfo) (meta : Metadata) (body : String)
    (hpath : get_unvalidated_post_path fs db id = .ok p)
    (hval : validate_post_path db p = true)
    (hTF : ttl_fresh db id now = false)
    (hopen : openFile fs p = .ok fi)
    (hUC : file_unchanged_check db id fi.mtime = false)
    (hid : id ≠ "/index")
    (hparse : fi.parse = some (meta, body)) :
    refresh fs db id now = ⟨insertPost db id ⟨now, fi.mtime, meta, body⟩,
      .ok ⟨now, fi.mtime, meta, body⟩,
      [.canonicalizeCall, .openCall, .statCall, .readParseCall]⟩ := by
  cases hl : db.posts.lookup id with
  | none =>
    simp [refresh, refresh_inner, hpath, hval, hl, hopen, parse_file, parse_page, hid, hparse,
      insertPost]
  | some e =>
    have hst := ttl_fresh_false_of_some hl hTF
    have hu := unchanged_false_of_some hl hUC
    simp [refresh, refresh_inner, hpath, hval, hl, hst, hopen, hu, parse_file, parse_page,
      hid, hparse, insertPost]

lemma scan_abort_eq (fs : Fs) (db : PostDb) (now : Int) (name : String) (rest : List String)
    (err : DbError) (db2 : PostDb) (ops : List IoOp)
    (hdot : str_starts_with name "." = false)
    (hmd : fileExtension name = some "md")
    (hnew : db.posts.lookup (file_stem name) = none)
    (href : refresh fs db (file_stem name) now = ⟨db2, .error err, ops⟩) :
    scan_posts fs db (name :: rest) now = (db2, .error err) := by
  simp [scan_posts, hdot, hmd, hnew, href]

/-- Example filesystem for the symlink claims: link.md is a symlink whose
canonicalization lands on real.md, inside the posts directory. -/
def fsX1 : Fs :=
  ⟨[(pdir ++ ["link.md"], pdir ++ ["real.md"])], [],
    [(pdir ++ ["real.md"], ⟨50, some (meta0, "B"), none⟩)], [],
    [pdir ++ ["link.md"]], []⟩

/-- Example database with an empty cache for the symlink counterexample. -/
def dbX1 : PostDb := ⟨[], pdir, 60, 0, im0, rb0⟩

/-- Example cached entry for the symlink witness. -/
def eW1 : PostEntry := ⟨100, 50, meta0, "B"⟩

/-- Example database with a fresh cached entry under the symlinked id. -/
def dbW1 : PostDb := ⟨[("link", eW1)], pdir, 60, 0, im0, rb0⟩

/-- Example filesystem where the file a_b.md exists inside the posts
directory. -/
def fsX2 : Fs :=
  ⟨[(pdir ++ ["a_b.md"], pdir ++ ["a_b.md"])], [],
    [(pdir ++ ["a_b.md"], ⟨40, some (meta0, "C"), none⟩)], [], [], []⟩

/-- Example database with an empty cache for the character counterexample. -/
def dbX2 : PostDb := ⟨[], pdir, 60, 0, im0, rb0⟩

/-- Example stale cached entry for the failure-semantics witness. -/
def eX3 : PostEntry := ⟨0, 0, meta0, "old"⟩

/-- Example database with a stale entry under id p. -/
def dbX3 : PostDb := ⟨[("p", eX3)], pdir, 10, 0, im0, rb0⟩

/-- Example filesystem where even canonicalization of p.md fails NotFound. -/
def fsX3a : Fs := ⟨[], [], [], [], [], []⟩

/-- Example filesystem where p.md canonicalizes but open fails NotFound. -/
def fsX3b : Fs := ⟨[(pdir ++ ["p.md"], pdir ++ ["p.md"])], [], [], [], [], []⟩

/-- Example filesystem where p.md opens but its front matter fails to
parse. -/
def fsX3c : Fs :=
  ⟨[(pdir ++ ["p.md"], pdir ++ ["p.md"])], [],
    [(pdir ++ ["p.md"], ⟨50, none, none⟩)], [], [], []⟩

/-- Example scan filesystem: the listing holds bad.md (front matter fails to
parse) before good.md (parses fine); the index file exists one level up. -/
def fsX4 : Fs :=
  ⟨[(pdir ++ ["bad.md"], pdir ++ ["bad.md"]),
    (pdir ++ ["good.md"], pdir ++ ["good.md"]),
    (pdir ++ ["..", "index.md"], ["srv", "index.md"])], [],
    [(pdir ++ ["bad.md"], ⟨5, none, none⟩),
     (pdir ++ ["good.md"], ⟨5, some (meta0, "G"), none⟩),
     (["srv", "index.md"], ⟨5, none, some (im0, "I")⟩)], [], [],
    ["bad.md", "good.md"]⟩

/-- Example database with an empty cache and a stale scan timestamp. -/
def dbX4 : PostDb := ⟨[], pdir, 10, 0, im0, rb0⟩

/-- Example cached entry inside its TTL window. -/
def eX5 : PostEntry := ⟨100, 90, meta0, "body"⟩

/-- Example database whose entry p is TTL-fresh at times up to 160. -/
def dbX5 : PostDb := ⟨[("p", eX5)], pdir, 60, 0, im0, rb0⟩

/-- Example filesystem backing the TTL-fresh entry. -/
def fsX5 : Fs :=
  ⟨[(pdir ++ ["p.md"], pdir ++ ["p.md"])], [],
    [(pdir ++ ["p.md"], ⟨90, some (meta0, "body"), none⟩)], [], [], []⟩

/-- Example entry whose last check (updated = 50) predates its recorded
mtime (last_modified = 100), as happens when a file carries a future
mtime at parse time. -/
def eX6 : PostEntry := ⟨50, 100, meta0, "old"⟩

/-- Example database holding that entry with ttl 10. -/
def dbX6 : PostDb := ⟨[("p", eX6)], pdir, 10, 0, im0, rb0⟩

/-- Example file whose mtime, 100, equals the cached last_modified: the file
is unchanged since the entry was parsed. -/
def fiX6 : FileInfo := ⟨100, some (meta0, "new"), none⟩

/-- Example filesystem backing the unchanged file. -/
def fsX6 : Fs :=
  ⟨[(pdir ++ ["p.md"], pdir ++ ["p.md"])], [],
    [(pdir ++ ["p.md"], fiX6)], [], [], []⟩

/-- Example entry for the bump witness: mtime 40 at or before updated 50. -/
def eW6 : PostEntry := ⟨50, 40, meta0, "old"⟩

/-- Example database for the bump witness. -/
def dbW6 : PostDb := ⟨[("q", eW6)], pdir, 10, 0, im0, rb0⟩

/-- Example filesystem for the bump witness. -/
def fsW6 : Fs :=
  ⟨[(pdir ++ ["q.md"], pdir ++ ["q.md"])], [],
    [(pdir ++ ["q.md"], ⟨40, some (meta0, "new"), none⟩)], [], [], []⟩

/-- Example entry without a front-matter created timestamp but with file
mtime 100. -/
def eX8 : PostEntry := ⟨0, 100, meta0, "b"⟩

/-- Example database holding only that undated post. -/
def dbX8 : PostDb := ⟨[("x", eX8)], pdir, 60, 0, im0, rb0⟩

/-- Example entry with created = 60 for the feed filter witness. -/
def eW8 : PostEntry := ⟨0, 10, ⟨"T", none, none, some 60, false, []⟩, "b"⟩

/-- Example database holding that dated post. -/
def dbW8 : PostDb := ⟨[("y", eW8)], pdir, 60, 0, im0, rb0⟩

/-- Counterexample to C1 as stated: a lookup whose path traverses a symlink
component, with the resolved target inside the canonical posts directory, is
accepted by the validator and served, not rejected. -/
theorem symlink_lookup_accepted_cx :
    has_any_symlinks fsX1 (joined_post_path dbX1 "link") = true ∧
    dbX1.posts_dir.isPrefixOf (pdir ++ ["real.md"]) = true ∧
    refresh fsX1 dbX1 "link" 100 =
      ⟨insertPost dbX1 "link" ⟨100, 50, meta0, "B"⟩, .ok ⟨100, 50, meta0, "B"⟩,
        [.canonicalizeCall, .openCall, .statCall, .readParseCall]⟩ := by
  decide

/-- C1 amended: the Refresh-one path validator performs no symlink check at
all — any lookup whose canonical path lies inside the posts directory with a
valid markdown file name is accepted even when its path traverses a symlink;
the reject-on-any-symlink rule exists only in the static-file route
(public_blocked). -/
theorem refresh_no_symlink_check (fs : Fs) (db : PostDb) (id : String) (now : Int)
    (p : FsPath) (e : PostEntry)
    (hsym : has_any_symlinks fs (joined_post_path db id) = true)
    (hpath : get_unvalidated_post_path fs db id = .ok p)
    (hin : db.posts_dir.isPrefixOf p = true)
    (hfn : valid_filename p = true)
    (hlook : db.posts.lookup id = some e)
    (hfresh : e.updated + db.ttl ≥ now) :
    (refresh fs db id now).res = .ok e ∧
      public_blocked fs (joined_post_path db id) = true := by
  constructor
  · rw [refresh_fast_path_eq fs db id now p e hpath (validate_of_parts db p hin hfn) hlook hfresh]
  · unfold public_blocked
    rw [hsym]
    simp

/-- Witness for C1 amended at a concrete symlinked lookup. -/
theorem refresh_no_symlink_check_witness :
    (refresh fsX1 dbW1 "link" 120).res = .ok eW1 ∧
      public_blocked fsX1 (joined_post_path dbW1 "link") = true :=
  refresh_no_symlink_check fsX1 dbW1 "link" 120 (pdir ++ ["real.md"]) eW1
    (by decide) (by decide) (by decide) (by decide) (by decide) (by decide)

/-- Counterexample to C2 as stated: the identifier a_b contains an
underscore, outside the allowed alphabet, yet the lookup is accepted and
cached — and the first operation performed is the canonicalization, a
filesystem access that precedes validation. -/
theorem invalid_char_id_accepted_cx :
    ("a_b".toList.all is_post_id_char) = false ∧
    refresh fsX2 dbX2 "a_b" 10 =
      ⟨insertPost dbX2 "a_b" ⟨10, 40, meta0, "C"⟩, .ok ⟨10, 40, meta0, "C"⟩,
        [.canonicalizeCall, .openCall, .statCall, .readParseCall]⟩ := by
  decide

/-- C2 amended: the validator constrains only the resolved path — canonical
containment in the posts directory, an md extension, and a leading ASCII
alphanumeric on the file name. It never scans the identifier characters, so
any identifier (whatever characters it contains) whose joined path
canonicalizes to such a file is accepted and parsed; canonicalization, a
filesystem access, always happens first (the head of the operation list). -/
theorem validator_ignores_identifier_characters (fs : Fs) (db : PostDb) (id : String)
    (now : Int) (p : FsPath) (fi : FileInfo) (meta : Metadata) (body : String)
    (hpath : get_unvalidated_post_path fs db id = .ok p)
    (hin : db.posts_dir.isPrefixOf p = true)
    (hfn : valid_filename p = true)
    (hTF : ttl_fresh db id now = false)
    (hopen : openFile fs p = .ok fi)
    (hUC : file_unchanged_check db id fi.mtime = false)
    (hid : id ≠ "/index")
    (hparse : fi.parse = some (meta, body)) :
    refresh fs db id now = ⟨insertPost db id ⟨now, fi.mtime, meta, body⟩,
      .ok ⟨now, fi.mtime, meta, body⟩,
      [.canonicalizeCall, .openCall, .statCall, .readParseCall]⟩ :=
  refresh_parse_ok_eq fs db id now p fi meta body hpath
    (validate_of_parts db p hin hfn) hTF hopen hUC hid hparse

/-- Witness for C2 amended at the concrete identifier a_b. -/
theorem validator_ignores_identifier_characters_witness :
    refresh fsX2 dbX2 "a_b" 10 = ⟨insertPost dbX2 "a_b" ⟨10, 40, meta0, "C"⟩,
      .ok ⟨10, 40, meta0, "C"⟩,
      [.canonicalizeCall, .openCall, .statCall, .readParseCall]⟩ :=
  validator_ignores_identifier_characters fsX2 dbX2 "a_b" 10 (pdir ++ ["a_b.md"])
    ⟨40, some (meta0, "C"), none⟩ meta0 "C"
    (by decide) (by decide) (by decide) (by decide) (by decide) (by decide) (by decide) (by decide)

/-- C3: past the TTL fast path, a missing backing file (at canonicalization
or at open) evicts the cached entry and reports NotFound, while a file that
opens but whose front matter is missing or fails schema validation yields an
InvalidData error with the database state — including any previously cached
entry — left exactly unchanged. -/
theorem refresh_missing_evicts_parse_error_preserves (fs : Fs) (db : PostDb) (id : String)
    (now : Int) :
    (get_unvalidated_post_path fs db id = .error .notFound →
      refresh fs db id now = ⟨removePost db id, .error .notFound, [.canonicalizeCall]⟩) ∧
    (∀ p, get_unvalidated_post_path fs db id = .ok p →
      validate_post_path db p = true →
      ttl_fresh db id now = false →
      openFile fs p = .error .notFound →
      refresh fs db id now =
        ⟨removePost db id, .error .notFound, [.canonicalizeCall, .openCall]⟩) ∧
    (∀ p fi, get_unvalidated_post_path fs db id = .ok p →
      validate_post_path db p = true →
      ttl_fresh db id now = false →
      openFile fs p = .ok fi →
      file_unchanged_check db id fi.mtime = false →
      id ≠ "/index" →
      fi.parse = none →
      refresh fs db id now = ⟨db, .error .invalidData,
        [.canonicalizeCall, .openCall, .statCall, .readParseCall]⟩) :=
  ⟨fun h => refresh_canon_notfound_eq fs db id now h,
   fun p h1 h2 h3 h4 => refresh_open_notfound_eq fs db id now p h1 h2 h3 h4,
   fun p fi h1 h2 h3 h4 h5 h6 h7 => refresh_parse_error_eq fs db id now p fi h1 h2 h3 h4 h5 h6 h7⟩

/-- Witness for C3 at concrete states: canonicalization NotFound, open
NotFound, and a parse failure that leaves the stale entry untouched. -/
theorem refresh_missing_evicts_parse_error_preserves_witness :
    refresh fsX3a dbX3 "p" 100 = ⟨removePost dbX3 "p", .error .notFound, [.canonicalizeCall]⟩ ∧
    refresh fsX3b dbX3 "p" 100 =
      ⟨removePost dbX3 "p", .error .notFound, [.canonicalizeCall, .openCall]⟩ ∧
    refresh fsX3c dbX3 "p" 100 = ⟨dbX3, .error .invalidData,
      [.canonicalizeCall, .openCall, .statCall, .readParseCall]⟩ :=
  ⟨(refresh_missing_evicts_parse_error_preserves fsX3a dbX3 "p" 100).1 (by decide),
   (refresh_missing_evicts_parse_error_preserves fsX3b dbX3 "p" 100).2.1
     (pdir ++ ["p.md"]) (by decide) (by decide) (by decide) (by decide),
   (refresh_missing_evicts_parse_error_preserves fsX3c dbX3 "p" 100).2.2
     (pdir ++ ["p.md"]) ⟨50, none, none⟩
     (by decide) (by decide) (by decide) (by decide) (by decide) (by decide) (by decide)⟩

/-- Counterexample to C4 as stated: during the discovery scan, the parse
failure of bad.md aborts the whole refresh_index call — good.md, present and
parseable and listed right after it, is never discovered, the scan timestamp
is not updated, and the error propagates. -/
theorem scan_abort_on_bad_file_cx :
    fsX4.dirEntries = ["bad.md", "good.md"] ∧
    (fsX4.files.lookup (dbX4.posts_dir ++ ["good.md"])).isSome = true ∧
    refresh_index fsX4 dbX4 true 100 = (dbX4, .error .invalidData) ∧
    dbX4.posts.lookup "good" = none ∧
    dbX4.index_updated = 0 := by
  decide

/-- C4 amended: a failure to refresh an individual discovered markdown file
aborts the discovery loop at that file: the error propagates and the rest of
the listing is never processed (dotted and non-markdown names are the only
entries that are skipped). -/
theorem scan_failure_aborts_discovery (fs : Fs) (db : PostDb) (now : Int) (name : String)
    (rest : List String) (err : DbError) (db2 : PostDb) (ops : List IoOp)
    (hdot : str_starts_with name "." = false)
    (hmd : fileExtension name = some "md")
    (hnew : db.posts.lookup (file_stem name) = none)
    (href : refresh fs db (file_stem name) now = ⟨db2, .error err, ops⟩) :
    scan_posts fs db (name :: rest) now = (db2, .error err) :=
  scan_abort_eq fs db now name rest err db2 ops hdot hmd hnew href

/-- Witness for C4 amended: the concrete scan aborts on bad.md whatever
follows it. -/
theorem scan_failure_aborts_discovery_witness :
    scan_posts fsX4 dbX4 ["bad.md", "good.md"] 100 = (dbX4, .error .invalidData) :=
  scan_failure_aborts_discovery fsX4 dbX4 100 "bad.md" ["good.md"] .invalidData dbX4
    [.canonicalizeCall, .openCall, .statCall, .readParseCall]
    (by decide) (by decide) (by decide) (by decide)

/-- Counterexample to C5 as stated: a TTL-fresh Refresh-one call does leave
the cache unchanged and return the cached entry, but it still performs one
filesystem operation — the path canonicalization of validation — so its disk
I/O is not empty. -/
theorem fast_path_canonicalizes_cx :
    dbX5.posts.lookup "p" = some eX5 ∧
    eX5.updated + dbX5.ttl ≥ (110 : Int) ∧
    refresh fsX5 dbX5 "p" 110 = ⟨dbX5, .ok eX5, [.canonicalizeCall]⟩ ∧
    ([IoOp.canonicalizeCall] ≠ ([] : List IoOp)) := by
  decide

/-- C5 amended: when the cached entry satisfies last-checked plus TTL at or
after now, Refresh-one returns that entry with the whole database state
unchanged and performs no file open, no stat, no read and no re-parse; its
only filesystem operation is the path canonicalization done by validation,
so a second call within the TTL window changes nothing and re-parses
nothing. -/
theorem ttl_fast_path_frame (fs : Fs) (db : PostDb) (id : String) (now : Int) (p : FsPath)
    (e : PostEntry)
    (hpath : get_unvalidated_post_path fs db id = .ok p)
    (hval : validate_post_path db p = true)
    (hlook : db.posts.lookup id = some e)
    (hfresh : e.updated + db.ttl ≥ now) :
    refresh fs db id now = ⟨db, .ok e, [.canonicalizeCall]⟩ :=
  refresh_fast_path_eq fs db id now p e hpath hval hlook hfresh

/-- Witness for C5 amended at a concrete fresh entry. -/
theorem ttl_fast_path_frame_witness :
    refresh fsX5 dbX5 "p" 120 = ⟨dbX5, .ok eX5, [.canonicalizeCall]⟩ :=
  ttl_fast_path_frame fsX5 dbX5 "p" 120 (pdir ++ ["p.md"]) eX5
    (by decide) (by decide) (by decide) (by decide)

/-- Counterexample to C6 as stated: the entry is stale by TTL and the file
mtime equals the cached last_modified (the file is unchanged), yet the code
fully re-parses and replaces the entry — because its check compares the
mtime against the updated field, which here is older than the mtime. -/
theorem bump_check_uses_updated_cx :
    dbX6.posts.lookup "p" = some eX6 ∧
    eX6.last_modified = 100 ∧
    fiX6.mtime = 100 ∧
    fsX6.files.lookup (dbX6.posts_dir ++ ["p.md"]) = some fiX6 ∧
    ¬ (eX6.updated + dbX6.ttl ≥ (70 : Int)) ∧
    refresh fsX6 dbX6 "p" 70 =
      ⟨insertPost dbX6 "p" ⟨70, 100, meta0, "new"⟩, .ok ⟨70, 100, meta0, "new"⟩,
        [.canonicalizeCall, .openCall, .statCall, .readParseCall]⟩ := by
  decide

/-- C6 amended: when the entry is stale by TTL and the file mtime is at most
the entry last-checked time (the updated field — the code compares mtime
against updated, not against last_modified), the refresh only bumps updated
to now: body, metadata and last_modified stay exactly unchanged and no
re-parse occurs. -/
theorem bump_only_when_mtime_le_updated (fs : Fs) (db : PostDb) (id : String) (now : Int)
    (p : FsPath) (e : PostEntry) (fi : FileInfo)
    (hpath : get_unvalidated_post_path fs db id = .ok p)
    (hval : validate_post_path db p = true)
    (hlook : db.posts.lookup id = some e)
    (hstale : ¬ (e.updated + db.ttl ≥ now))
    (hopen : openFile fs p = .ok fi)
    (hbump : e.updated ≥ fi.mtime) :
    refresh fs db id now = ⟨insertPost db id { e with updated := now },
      .ok { e with updated := now }, [.canonicalizeCall, .openCall, .statCall]⟩ :=
  refresh_bump_eq fs db id now p e fi hpath hval hlook hstale hopen hbump

/-- Witness for C6 amended at a concrete stale-but-unchanged entry. -/
theorem bump_only_when_mtime_le_updated_witness :
    refresh fsW6 dbW6 "q" 70 = ⟨insertPost dbW6 "q" { eW6 with updated := 70 },
      .ok { eW6 with updated := 70 }, [.canonicalizeCall, .openCall, .statCall]⟩ :=
  bump_only_when_mtime_le_updated fsW6 dbW6 "q" 70 (pdir ++ ["q.md"]) eW6
    ⟨40, some (meta0, "new"), none⟩
    (by decide) (by decide) (by decide) (by decide) (by decide) (by decide)

/-- Counterexample to C8 as stated: a post without a front-matter created
timestamp has published timestamp 100 (its mtime), at or after since = 50,
yet the feed with since = 50 excludes it — the filter compares only the
front-matter created field. -/
theorem feed_drops_undated_posts_cx :
    all_posts dbX8 = [⟨"x", eX8⟩] ∧
    published ⟨"x", eX8⟩ = 100 ∧
    ((50 : Int) ≤ 100) ∧
    get_rss_posts dbX8 (some 50) 10 = [] := by
  decide

/-- Witness for C8 amended at a concrete dated post. -/
theorem feed_filter_by_created_only_witness :
    (∃ t, (Post.mk "y" eW8).entry.metadata.created = some t ∧ (50 : Int) ≤ t) ∧
    (Post.mk "y" eW8) ∈ get_rss_posts dbW8 (some 50) 10 :=
  ⟨(feed_filter_by_created_only dbW8 50 10).1 ⟨"y", eW8⟩ (by decide),
   (feed_filter_by_created_only dbW8 50 10).2 (by decide) ⟨"y", eW8⟩ (by decide) 60
     (by decide) (by decide)⟩
